import Mathlib

/-!
Shallow embedding of `src/lib.rs` of the `relation` crate.

The Rust code defines a generic struct `Relation<I, F>` holding a current
numeric value and a transition function, with methods `new`,
`calculate_next`, `next` and `nth`.  The struct mutates through `&mut self`;
here mutation is modelled by explicit state passing: a method taking
`&mut self` becomes a Lean function returning the updated `Relation`
(paired with the return value where the Rust method returns one).
The numeric type parameter `I` stays abstract; the closure parameter `F`
is embedded as a plain function `I → I`.
-/

/-- Embedding of `struct Relation<I, F> { current_number: I, relation: F }`. -/
structure Relation (I : Type) where
  current_number : I
  relation : I → I

namespace Relation

variable {I : Type}

/-- Embedding of `Relation::new(starter, relation)`:
`Self { current_number: starter, relation }`. -/
def new (starter : I) (relation : I → I) : Relation I :=
  { current_number := starter, relation := relation }

/-- Embedding of `Relation::calculate_next(&self)`:
`(self.relation)(self.current_number)`.  Takes `&self`, so it returns only
the computed value and no updated state. -/
def calculate_next (self : Relation I) : I :=
  self.relation self.current_number

/-- Embedding of `Relation::next(&mut self)`:
`self.current_number = self.calculate_next()`.  The mutation of `&mut self`
is returned as the new state. -/
def next (self : Relation I) : Relation I :=
  { self with current_number := self.calculate_next }

/-- The `for _ in 0..index { self.next(); }` loop inside `Relation::nth`,
unrolled by recursion on the remaining iteration count: each pass applies
`next` to the state threaded through the loop. -/
def nthLoop (self : Relation I) : Nat → Relation I
  | 0 => self
  | Nat.succ n => nthLoop self.next n

/-- Embedding of `Relation::nth(&mut self, index)`: runs the `for` loop,
then returns `self.current_number`.  The result pairs the final state
(`&mut self` after the call) with the returned value. -/
def nth (self : Relation I) (index : Nat) : Relation I × I :=
  let final := nthLoop self index
  (final, final.current_number)

/-- An operation of the public API that touches an existing `Relation`,
used to state invariants over arbitrary call sequences. -/
inductive Op where
  | peek : Op
  | adv : Op
  | advN : Nat → Op

/-- Effect of one API call on the state: `calculate_next` takes `&self`
and leaves the state untouched; `next` and `nth` update it. -/
def runOp (self : Relation I) : Op → Relation I
  | Op.peek => self
  | Op.adv => self.next
  | Op.advN n => (self.nth n).1

/-- Runs a sequence of API calls left to right, threading the state. -/
def runOps (self : Relation I) : List Op → Relation I
  | [] => self
  | o :: os => runOps (runOp self o) os

/-- `#[derive(Copy, Clone)]` on `Relation`: duplicating a value yields a
bitwise copy of both fields. -/
def dup (self : Relation I) : Relation I × Relation I :=
  (self, self)

end Relation

/-- Modelled from the spec: `advance_n(count)` invokes the equivalent of
`advance()` exactly `count` times in sequence (no reordering, no skipping),
then returns the resulting current value.  Stated independently of the
source's `nth`, as `count`-fold iteration of `next`. -/
def advance_n_spec {I : Type} (self : Relation I) (count : Nat) :
    Relation I × I :=
  (Relation.next^[count] self, (Relation.next^[count] self).current_number)

namespace Relation

variable {I : Type}

theorem nthLoop_eq_iterate (self : Relation I) (n : Nat) :
    nthLoop self n = Relation.next^[n] self := by
  induction n generalizing self with
  | zero => rfl
  | succ n ih =>
      rw [nthLoop, ih, Function.iterate_succ_apply]

theorem relation_next (self : Relation I) :
    self.next.relation = self.relation := rfl

theorem relation_iterate_next (self : Relation I) (n : Nat) :
    (Relation.next^[n] self).relation = self.relation := by
  induction n generalizing self with
  | zero => rfl
  | succ n ih =>
      rw [Function.iterate_succ_apply, ih, relation_next]

theorem relation_nthLoop (self : Relation I) (n : Nat) :
    (nthLoop self n).relation = self.relation := by
  rw [nthLoop_eq_iterate]
  exact relation_iterate_next self n

theorem current_nthLoop (self : Relation I) (n : Nat) :
    (nthLoop self n).current_number = self.relation^[n] self.current_number := by
  induction n generalizing self with
  | zero => rfl
  | succ n ih =>
      rw [nthLoop, ih, relation_next, Function.iterate_succ_apply]
      rfl

/-- Every state reachable by a call sequence carries the same transition
function and a current value of the form `relation^[k] current`. -/
theorem runOps_invariant (self : Relation I) (ops : List Op) :
    ∃ k : Nat,
      (runOps self ops).current_number = self.relation^[k] self.current_number ∧
      (runOps self ops).relation = self.relation := by
  induction ops generalizing self with
  | nil => exact ⟨0, rfl, rfl⟩
  | cons o os ih =>
      cases o with
      | peek => exact ih self
      | adv =>
          obtain ⟨k, hc, hf⟩ := ih self.next
          refine ⟨k + 1, ?_, ?_⟩
          · rw [runOps, runOp, hc, relation_next, Function.iterate_succ_apply]
            rfl
          · rw [runOps, runOp, hf, relation_next]
      | advN n =>
          obtain ⟨k, hc, hf⟩ := ih (self.nth n).1
          have h1 : (self.nth n).1 = nthLoop self n := rfl
          rw [h1, relation_nthLoop, current_nthLoop] at hc
          rw [h1, relation_nthLoop] at hf
          refine ⟨k + n, ?_, ?_⟩
          · rw [runOps, runOp, h1, hc, ← Function.iterate_add_apply]
          · rw [runOps, runOp, h1, hf]

end Relation

namespace Relation

variable {I : Type}

theorem runOps_peek_replicate (self : Relation I) (n : Nat) (ops : List Op) :
    runOps self (List.replicate n Op.peek ++ ops) = runOps self ops := by
  induction n with
  | zero => rfl
  | succ n ih =>
      rw [List.replicate_succ, List.cons_append, runOps]
      exact ih

end Relation

/-- The integer increment relation of the test `test_relation`:
`Relation::new(1, |x| x + 1)` over the signed integer type. -/
def incRelation : Relation Int :=
  Relation.new 1 (fun x => x + 1)

/-- C1: for every count and every Relation state, `nth count` performs
exactly `count` sequential applications of `next` in order and then returns
the resulting current value — it coincides with the spec-modelled
`advance_n_spec`, the `count`-fold iteration of `next` paired with the
final current value. -/
theorem claim_C1_nth_is_iterated_next {I : Type} (self : Relation I)
    (count : Nat) :
    self.nth count = advance_n_spec self count := by
  unfold Relation.nth advance_n_spec
  rw [Relation.nthLoop_eq_iterate]

/-- C2: `new s f` always succeeds and yields a Relation whose current value
is exactly `s` and whose transition function is `f`, with no transition
applied. -/
theorem claim_C2_new_sets_starter {I : Type} (s : I) (f : I → I) :
    (Relation.new s f).current_number = s ∧ (Relation.new s f).relation = f :=
  ⟨rfl, rfl⟩

/-- C3: `calculate_next` returns `transition(current)` and does not mutate
the Relation: any number of peeks inserted before any further sequence of
API calls leaves the final state (hence the results of all subsequent
`next`/`nth` calls) identical to omitting the peeks. -/
theorem claim_C3_peek_pure {I : Type} (self : Relation I) :
    self.calculate_next = self.relation self.current_number ∧
    ∀ (n : Nat) (ops : List Relation.Op),
      Relation.runOps self (List.replicate n Relation.Op.peek ++ ops) =
        Relation.runOps self ops :=
  ⟨rfl, fun n ops => Relation.runOps_peek_replicate self n ops⟩

/-- C4: `next` sets the current value to `transition(current)`, leaves the
transition function unchanged, and immediately afterwards `calculate_next`
returns the transition applied to the new current value,
`f (f current)`. -/
theorem claim_C4_next_steps_once {I : Type} (self : Relation I) :
    self.next.current_number = self.relation self.current_number ∧
    self.next.relation = self.relation ∧
    self.next.calculate_next =
      self.relation (self.relation self.current_number) :=
  ⟨rfl, rfl, rfl⟩

/-- C5: composition law — running `nth a` and then `nth b` leaves exactly
the same final Relation state as running `nth (a + b)` once. -/
theorem claim_C5_nth_composes {I : Type} (self : Relation I) (a b : Nat) :
    (((self.nth a).1).nth b).1 = (self.nth (a + b)).1 := by
  show Relation.nthLoop (Relation.nthLoop self a) b =
    Relation.nthLoop self (a + b)
  rw [Relation.nthLoop_eq_iterate, Relation.nthLoop_eq_iterate,
    Relation.nthLoop_eq_iterate, Nat.add_comm a b,
    Function.iterate_add_apply]

/-- C6: `nth 0` is legal, applies the transition zero times, and returns the
unchanged current value together with the unchanged state. -/
theorem claim_C6_nth_zero {I : Type} (self : Relation I) :
    self.nth 0 = (self, self.current_number) :=
  rfl

/-- C7: invariant preserved by every operation sequence on `new s f` — the
current value always equals `f` applied zero or more times to the starter
`s`, and the stored transition function is never replaced. -/
theorem claim_C7_invariant {I : Type} (s : I) (f : I → I)
    (ops : List Relation.Op) :
    ∃ k : Nat,
      (Relation.runOps (Relation.new s f) ops).current_number = f^[k] s ∧
      (Relation.runOps (Relation.new s f) ops).relation = f :=
  Relation.runOps_invariant (Relation.new s f) ops

/-- C8: for all k, the value `calculate_next` returns after `nth k` equals
the current value obtained by performing `nth k` and then one additional
`next`. -/
theorem claim_C8_peek_after_nth {I : Type} (self : Relation I) (k : Nat) :
    ((self.nth k).1).calculate_next = (((self.nth k).1).next).current_number :=
  rfl

set_option maxRecDepth 100000 in
/-- C9: for `Relation::new(1, |x| x + 1)` over the integers,
`calculate_next` returns 2; after one `next` the current value is 2; and
`nth 100` from that state returns exactly 102. -/
theorem claim_C9_integer_increment :
    incRelation.calculate_next = 2 ∧
    incRelation.next.current_number = 2 ∧
    (incRelation.next.nth 100).2 = 102 := by
  refine ⟨rfl, rfl, ?_⟩
  decide

/-- C10: `Relation` derives Copy and Clone, so `dup` duplicates the value
into two equal, fully independent Relations: each copy evolves under
`nth` exactly as the original would, regardless of how many steps the
other copy takes — advancing one copy leaves the other (and the original
value `self`) untouched. -/
theorem claim_C10_copy_independent {I : Type} (self : Relation I)
    (m n : Nat) :
    self.dup = (self, self) ∧
    ((self.dup.1).nth m).1 = (self.nth m).1 ∧
    ((self.dup.2).nth n).1 = (self.nth n).1 :=
  ⟨rfl, rfl, rfl⟩
